import Mathlib

/- Verification development for the proxy-herd location server
   (server.py, utils.py, api.py, proxy.py, config.py).

   Modelling conventions, used throughout:
   * a Python string is a list of characters (Str);
   * a Python float is an exact decimal number (Dec); the binary rounding of
     IEEE floats, exponent notation, inf and nan are outside the model;
   * the global dict client_locations is an association list carried in an
     explicit ServerState, the set seen_messages is a list without duplicates;
   * socket writes are returned as explicit (neighbor, line) send lists;
   * a Python exception that the surrounding code does not catch is the
     value none of an Option result. -/

abbrev Str := List Char

/-- Helper for Python str.split(): the accumulator holds the current token
reversed; tokens are emitted at whitespace boundaries, empties dropped. -/
def splitWsAux : Str → Str → List Str
  | [], acc => if acc = [] then [] else [acc.reverse]
  | c :: cs, acc =>
      if c.isWhitespace then
        if acc = [] then splitWsAux cs [] else acc.reverse :: splitWsAux cs []
      else splitWsAux cs (c :: acc)

/-- Python str.split() with no argument: split on runs of whitespace,
dropping empty pieces. -/
def splitWs (s : Str) : List Str := splitWsAux s []

/-- An exact decimal value m / 10 ^ e, the model of a Python float. -/
structure Dec where
  m : Int
  e : Nat
  deriving DecidableEq, Repr

/-- Strip trailing zero digits of the fraction, mirroring that float("0.50")
and float("0.5") denote the same Python value. -/
def normAux : Int → Nat → Dec
  | m, 0 => ⟨m, 0⟩
  | m, e + 1 => if m % 10 = 0 then normAux (m / 10) e else ⟨m, e + 1⟩

def Dec.norm (m : Int) (e : Nat) : Dec := normAux m e

/-- A Dec is in normal form when the fraction has no trailing zero digit. -/
def Dec.isNorm (d : Dec) : Prop := d.e = 0 ∨ d.m % 10 ≠ 0

instance (d : Dec) : Decidable d.isNorm := by
  unfold Dec.isNorm
  infer_instance

def Dec.toRat (d : Dec) : ℚ := (d.m : ℚ) / (10 : ℚ) ^ d.e

/-- Value order of two decimals, in cross-multiplied integer form. -/
def Dec.lt (a b : Dec) : Prop := a.m * 10 ^ b.e < b.m * 10 ^ a.e

instance (a b : Dec) : Decidable (Dec.lt a b) := by
  unfold Dec.lt
  infer_instance

/-- Exact difference of two decimals (the model of Python float subtraction). -/
def Dec.sub (a b : Dec) : Dec :=
  let e := max a.e b.e
  Dec.norm (a.m * 10 ^ (e - a.e) - b.m * 10 ^ (e - b.e)) e

def digitChar (n : Nat) : Char := Char.ofNat (48 + n)

def charVal (c : Char) : Nat := c.toNat - 48

/-- Decimal digits, least significant first, with explicit fuel so that
the kernel can evaluate the definition. -/
def digitsLAux : Nat → Nat → List Char
  | _, 0 => []
  | 0, _ + 1 => []
  | f + 1, n + 1 => digitChar ((n + 1) % 10) :: digitsLAux f ((n + 1) / 10)

/-- Decimal digits of n, least significant first, [] for 0. -/
def digitsL (n : Nat) : List Char := digitsLAux n n

/-- Decimal digit string of a natural number, most significant first. -/
def printNat (n : Nat) : Str := if n = 0 then ['0'] else (digitsL n).reverse

/-- Value of a digit string, most significant first. -/
def toNatVal (l : Str) : Nat := l.foldl (fun a c => a * 10 + charVal c) 0

/-- The digit text of the value n / 10 ^ e: the digits of n left-padded with
zeros to at least e + 1 places, with the decimal point e places from the
right; for e = 0 the fraction ".0" is printed (repr(2.0) is "2.0"). -/
def printUnsigned (n : Nat) (e : Nat) : Str :=
  if e = 0 then printNat n ++ ['.', '0']
  else
    (List.replicate (e + 1 - (printNat n).length) '0' ++ printNat n).take
        ((List.replicate (e + 1 - (printNat n).length) '0' ++ printNat n).length - e) ++
      '.' :: (List.replicate (e + 1 - (printNat n).length) '0' ++ printNat n).drop
        ((List.replicate (e + 1 - (printNat n).length) '0' ++ printNat n).length - e)

/-- Python repr of a float value, restricted to plain decimal notation:
a sign for negative values, then the digit text. -/
def printDec (d : Dec) : Str :=
  (if d.m < 0 then ['-'] else []) ++ printUnsigned d.m.natAbs d.e

/-- Strip one optional leading sign, returning the signum and the rest. -/
def stripSign : Str → Int × Str
  | c :: r => if c = '+' then (1, r) else if c = '-' then (-1, r) else (1, c :: r)
  | [] => (1, [])

/-- The unsigned body of Python float(s): digits with an optional fraction
("1", "1.", ".5" are accepted, "" and "." are not).  The parsed value
forgets the textual form, so the result is normalised. -/
def parseDecAux (sg : Int) (s1 : Str) : Option Dec :=
  match s1.dropWhile Char.isDigit with
  | [] =>
      if s1.takeWhile Char.isDigit = [] then none
      else some (Dec.norm (sg * toNatVal (s1.takeWhile Char.isDigit)) 0)
  | '.' :: r =>
      if r.dropWhile Char.isDigit = [] ∧
          ¬(s1.takeWhile Char.isDigit = [] ∧ r.takeWhile Char.isDigit = []) then
        some (Dec.norm
          (sg * (toNatVal (s1.takeWhile Char.isDigit) *
              10 ^ (r.takeWhile Char.isDigit).length +
            toNatVal (r.takeWhile Char.isDigit)))
          (r.takeWhile Char.isDigit).length)
      else none
  | _ => none

/-- Python float(s), restricted to plain decimal notation (exponent, inf
and nan forms are outside the model). -/
def parseDecimal (s : Str) : Option Dec :=
  parseDecAux (stripSign s).1 (stripSign s).2

/-- utils.parse_time_diff: strip one leading plus sign, then call float();
no sign is required, and a minus sign is handled by float() itself. -/
def parse_time_diff (s : Str) : Option Dec :=
  match s with
  | c :: r => if c = '+' then parseDecimal r else parseDecimal (c :: r)
  | [] => parseDecimal []

/-- utils.format_time_diff: an explicit plus sign for non-negative values. -/
def format_time_diff (d : Dec) : Str :=
  if 0 ≤ d.m then '+' :: printDec d else printDec d

/-- The parsed fields of an AT record (the client_info dict of the source;
location, timestamp are kept verbatim as strings, time_diff as a float). -/
structure ClientInfo where
  server_id : Str
  time_diff : Dec
  client_id : Str
  location : Str
  timestamp : Str
  deriving DecidableEq, Repr

/-- utils.parse_at_message: at least 6 tokens, first token "AT", the skew
field must pass parse_time_diff; extra tokens are ignored. -/
def parse_at_message (message : Str) : Option ClientInfo :=
  match splitWs message with
  | p0 :: p1 :: p2 :: p3 :: p4 :: p5 :: _ =>
      if p0 = "AT".toList then
        match parse_time_diff p2 with
        | some td => some ⟨p1, td, p3, p4, p5⟩
        | none => none
      else none
  | _ => none

/-- Consume a mandatory sign character. -/
def eatSign : Str → Option Str
  | c :: r => if c = '+' ∨ c = '-' then some r else none
  | [] => none

/-- Consume one or more digits. -/
def eatDigits1 : Str → Option Str
  | c :: r => if c.isDigit then some (r.dropWhile Char.isDigit) else none
  | [] => none

/-- Consume a literal dot. -/
def eatDot : Str → Option Str
  | '.' :: r => some r
  | _ => none

/-- utils.validate_location_format: the regex [+-]\d+[.]\d+[+-]\d+[.]\d+
anchored at both ends. -/
def validate_location_format (s : Str) : Bool :=
  (do
    let s ← eatSign s
    let s ← eatDigits1 s
    let s ← eatDot s
    let s ← eatDigits1 s
    let s ← eatSign s
    let s ← eatDigits1 s
    let s ← eatDot s
    let s ← eatDigits1 s
    if s = [] then some () else none).isSome

/-- utils.validate_iamat_command: 4 tokens, client id free of whitespace,
location in ISO 6709 form, timestamp a float. -/
def validate_iamat_command (parts : List Str) : Bool :=
  match parts with
  | [_, cid, loc, ts] =>
      (!cid.any Char.isWhitespace) && validate_location_format loc
        && (parseDecimal ts).isSome
  | _ => false

/-- Python int(s): an optional sign, then one or more digits and nothing
else (underscore groups are outside the model). -/
def parseIntPy (s : Str) : Option Int :=
  let digitsToNat : Str → Option Nat := fun l =>
    if l ≠ [] ∧ l.all Char.isDigit then some (toNatVal l) else none
  match s with
  | '+' :: r => (digitsToNat r).map (fun n => (n : Int))
  | '-' :: r => (digitsToNat r).map (fun n => -(n : Int))
  | _ => (digitsToNat s).map (fun n => (n : Int))

/-- Join tokens with single spaces, the shape of the f-string templates
used for the wire lines. -/
def joinSp : List Str → Str
  | [] => []
  | [t] => t
  | t :: ts => t ++ ' ' :: joinSp ts

/-- utils.format_flood_message: the canonical AT wire line; the same text
is produced inline at server.py lines 190 and 212. -/
def format_flood_message (server_id : Str) (ci : ClientInfo) : Str :=
  joinSp ["AT".toList, server_id, format_time_diff ci.time_diff,
    ci.client_id, ci.location, ci.timestamp]

/-- utils.generate_message_id: colon-joined fingerprint with no escaping. -/
def generate_message_id (server_id client_id timestamp : Str) : Str :=
  server_id ++ ':' :: client_id ++ ':' :: timestamp

/-- config.MAX_SEEN_MESSAGES. -/
def MAX_SEEN_MESSAGES : Nat := 1000

/-- utils.has_seen_message: returns whether the id was already present and
the seen set after the call (the function mutates the set: a new id is
added, and one entry is evicted past the capacity bound; set.pop removes
an arbitrary element, modelled as the last of the list). -/
def has_seen_message (id : Str) (seen : List Str) : Bool × List Str :=
  if id ∈ seen then (true, seen)
  else if (id :: seen).length > MAX_SEEN_MESSAGES then (false, (id :: seen).dropLast)
  else (false, id :: seen)

/-- Python set.add on the list model of a set. -/
def addSeen (id : Str) (seen : List Str) : List Str :=
  if id ∈ seen then seen else id :: seen

/-- The client_locations dict: an association list in insertion order. -/
abbrev Store := List (Str × ClientInfo)

/-- Dict lookup. -/
def lookupStore (k : Str) : Store → Option ClientInfo
  | [] => none
  | (k', v) :: r => if k' = k then some v else lookupStore k r

/-- Dict assignment: replace in place, else append (Python dict order). -/
def setStore (k : Str) (v : ClientInfo) : Store → Store
  | [] => [(k, v)]
  | (k', v') :: r => if k' = k then (k, v) :: r else (k', v') :: setStore k v r

/-- The mutable state of one ProxyServer: its id, the static neighbor list,
the currently connected neighbors (keys of server_connections), the seen
set and the location store. -/
structure ServerState where
  server_id : Str
  neighbors : List Str
  connections : List Str
  seen : List Str
  store : Store
  deriving DecidableEq, Repr

/-- ProxyServer.propagate_location: the (neighbor, line) writes performed -
every neighbor not excluded and currently connected receives the flood
line, in neighbor-list order. -/
def propagate_location (st : ServerState) (ci : ClientInfo) (exclude : List Str) :
    List (Str × Str) :=
  let message := format_flood_message ci.server_id ci
  (st.neighbors.filter (fun n => decide (n ∉ exclude ∧ n ∈ st.connections))).map
    (fun n => (n, message))

/-- The condition at server.py line 255 deciding whether an incoming AT
record replaces the stored one; none is the ValueError raised when a
stored or incoming timestamp fails float(). -/
def storeAccepts (store : Store) (ci : ClientInfo) : Option Bool :=
  match lookupStore ci.client_id store with
  | none => some true
  | some old =>
      match parseDecimal old.timestamp, parseDecimal ci.timestamp with
      | some a, some b => some (decide (Dec.lt a b))
      | _, _ => none

/-- message.startswith("AT "). -/
def startsWithAT : Str → Bool
  | 'A' :: 'T' :: ' ' :: _ => true
  | _ => false

/-- ProxyServer.process_server_message on an already stripped line: returns
the state after the call and the flood writes issued, or none when an
uncaught ValueError escapes (a stored timestamp that float() rejects). -/
def process_server_message (st : ServerState) (source : Str) (message : Str) :
    Option (ServerState × List (Str × Str)) :=
  if startsWithAT message then
    match parse_at_message message with
    | none => some (st, [])
    | some ci =>
        let mid := generate_message_id ci.server_id ci.client_id ci.timestamp
        let r := has_seen_message mid st.seen
        if r.1 then some ({ st with seen := r.2 }, [])
        else
          let st1 : ServerState := { st with seen := addSeen mid r.2 }
          match storeAccepts st1.store ci with
          | none => none
          | some false => some (st1, [])
          | some true =>
              let st2 : ServerState :=
                { st1 with store := setStore ci.client_id ci st1.store }
              some (st2, propagate_location st2 ci [source])
  else some (st, [])

/-- The "? <original line>" response. -/
def qmark (command : Str) : Str := '?' :: ' ' :: command

/-- The "? No information available for <client_id>" response. -/
def noInfo (cid : Str) : Str := "? No information available for ".toList ++ cid

/-- ProxyServer.process_command on an already stripped line.  Inputs beside
the command: the wall clock time and the places lookup body (the oracle for
api.get_nearby_places).  Returns the response text, the state after the
call and the flood writes, or none when an uncaught exception escapes.
The WHATSAT branch with a stored client reaches the statement
"from api import parse_location, get_nearby_places" (server.py line 215);
api.py line 89 holds an unterminated string literal, so that import raises
SyntaxError, which no enclosing handler catches: the branch is modelled as
none. -/
def process_command (st : ServerState) (server_time : Dec) (places : Str)
    (command : Str) : Option (Str × ServerState × List (Str × Str)) :=
  match splitWs command with
  | [] => some ("? ".toList, st, [])
  | cmd0 :: rest =>
      if cmd0 = "IAMAT".toList then
        if validate_iamat_command (cmd0 :: rest) then
          match rest with
          | [cid, loc, ts] =>
              match parseDecimal ts with
              | some ct =>
                  let td := Dec.sub server_time ct
                  let ci : ClientInfo := ⟨st.server_id, td, cid, loc, ts⟩
                  let st1 : ServerState := { st with store := setStore cid ci st.store }
                  let mid := generate_message_id st.server_id cid ts
                  let st2 : ServerState := { st1 with seen := addSeen mid st1.seen }
                  some (format_flood_message st.server_id ci, st2,
                        propagate_location st2 ci [])
              | none => some (qmark command, st, [])
          | _ => some (qmark command, st, [])
        else some (qmark command, st, [])
      else if cmd0 = "WHATSAT".toList then
        match rest with
        | [cid, radius, limit] =>
            match parseIntPy radius, parseIntPy limit with
            | some radius_km, some info_limit =>
                if radius_km > 50 ∨ info_limit > 20 then some (qmark command, st, [])
                else
                  match lookupStore cid st.store with
                  | none => some (noInfo cid, st, [])
                  | some _ => none
            | _, _ => some (qmark command, st, [])
        | _ => some (qmark command, st, [])
      else some (qmark command, st, [])

/-- handle_client_connection: the bytes written back for one command line -
the response of process_command plus one newline; none when the command
raised and the connection was closed with nothing written. -/
def clientReplyBytes (st : ServerState) (server_time : Dec) (places : Str)
    (command : Str) : Option Str :=
  (process_command st server_time places command).map (fun r => r.1 ++ ['\n'])

/-- One iteration outcome of the reconnection loop of connect_to_server:
fail is a refused dial, succ a successful dial whose connection later
ended. -/
inductive ConnEvent where
  | fail
  | succ
  deriving DecidableEq, Repr

/-- config retry constants. -/
def CONNECTION_RETRY_INITIAL : Nat := 1

def CONNECTION_RETRY_MAX : Nat := 60

def CONNECTION_RETRY_FACTOR : Nat := 2

/-- The delay update after a failed dial (server.py line 91, proxy.py
line 61). -/
def nextDelay (d : Nat) : Nat := min (d * CONNECTION_RETRY_FACTOR) CONNECTION_RETRY_MAX

/-- The reconnection loop of connect_to_server (identical in server.py and
proxy.py), abstracted over the sequence of dial outcomes: returns the list
of sleeps performed, in order, and the final retry_delay.  A failed dial
sleeps for the current delay and then updates it; a successful dial leaves
retry_delay untouched, so the loop resumes with its previous value after
the connection ends. -/
def runRetry (d : Nat) : List ConnEvent → List Nat × Nat
  | [] => ([], d)
  | ConnEvent.fail :: es =>
      let r := runRetry (nextDelay d) es
      (d :: r.1, r.2)
  | ConnEvent.succ :: es => runRetry d es

/-- The retry loop the claim describes, for comparison: identical except
that a successful connect resets the delay to the initial value. -/
def runRetryReset (d : Nat) : List ConnEvent → List Nat × Nat
  | [] => ([], d)
  | ConnEvent.fail :: es =>
      let r := runRetryReset (nextDelay d) es
      (d :: r.1, r.2)
  | ConnEvent.succ :: es => runRetryReset CONNECTION_RETRY_INITIAL es

/-- A usable wire token: nonempty and free of whitespace. -/
def wsFree (s : Str) : Prop := s ≠ [] ∧ ∀ c ∈ s, c.isWhitespace = false

instance (s : Str) : Decidable (wsFree s) := by
  unfold wsFree
  infer_instance

/-- Scenario for claim C1: a canonical AT line as flooded by a peer. -/
def atLineC1 : Str :=
  "AT Bailey +0.081036003 kiwi.cs.ucla.edu +34.068930-118.445127 1520023934.918963997".toList

/-- Scenario state for claim C1. -/
def stC1 : ServerState :=
  ⟨"Bona".toList, ["Bailey".toList, "Clark".toList, "Campbell".toList],
    ["Bailey".toList, "Clark".toList], [], []⟩

/-- Scenario for claim C3: a stored record for kiwi.cs.ucla.edu. -/
def ciC3 : ClientInfo :=
  ⟨"Bailey".toList, ⟨81036003, 9⟩, "kiwi.cs.ucla.edu".toList,
    "+34.068930-118.445127".toList, "1520023934.918963997".toList⟩

/-- Scenario state for claim C3: kiwi is present in the store. -/
def stC3 : ServerState :=
  ⟨"Bailey".toList, ["Bona".toList, "Campbell".toList], ["Bona".toList], [],
    [("kiwi.cs.ucla.edu".toList, ciC3)]⟩

/-- Scenario for claim C10: an AT update whose fingerprint collides
with that of the distinct triple (A:B, C, 100). -/
def msgC10 : Str := "AT A +0.5 B:C +1.0-2.0 100".toList

/-- The record carried by msgC10. -/
def ciC10 : ClientInfo :=
  ⟨"A".toList, ⟨5, 1⟩, "B:C".toList, "+1.0-2.0".toList, "100".toList⟩

/-- Scenario state for claim C10: the seen set holds the fingerprint of
the other triple (A:B, C, 100). -/
def stC10 : ServerState :=
  ⟨"Bona".toList, ["S".toList], ["S".toList],
    [generate_message_id "A:B".toList "C".toList "100".toList], []⟩

/-- Scenario for claim C8: an AT line whose skew token 0.5 has no sign. -/
def msgC8 : Str := "AT Svr 0.5 cli +1.0-2.0 100".toList

/-- The record parsed from msgC8. -/
def ciC8 : ClientInfo :=
  ⟨"Svr".toList, ⟨5, 1⟩, "cli".toList, "+1.0-2.0".toList, "100".toList⟩

/-- Scenario state for claim C5: empty store. -/
def stC5 : ServerState := ⟨"Bailey".toList, [], [], [], []⟩

/-- Scenario for claim C2: the incumbent record with client_time 100. -/
def ciOldC2 : ClientInfo :=
  ⟨"Bailey".toList, ⟨0, 0⟩, "cli".toList, "+1.0-2.0".toList, "100".toList⟩

/-- Scenario state for claim C2: cli maps to the incumbent. -/
def stC2 : ServerState :=
  ⟨"Bona".toList, [], [], [], [("cli".toList, ciOldC2)]⟩

/-- The record the IAMAT path stores for client_time 50 at wall clock 0. -/
def ciNewC2 : ClientInfo :=
  ⟨"Bona".toList, ⟨-50, 0⟩, "cli".toList, "+1.0-2.0".toList, "50".toList⟩

/-- The acceptance test of the WHATSAT branch of process_command on the
three tokens after the command word. -/
def whatsatOk (rest : List Str) : Bool :=
  match rest with
  | [_, radius, limit] =>
      match parseIntPy radius, parseIntPy limit with
      | some r, some l => decide (r ≤ 50 ∧ l ≤ 20)
      | _, _ => false
  | _ => false

/-- Witness record for claim C4: the spec example update as stored at its
origin server Bailey. -/
def ciW4 : ClientInfo :=
  ⟨"Bailey".toList, ⟨81036003, 9⟩, "kiwi.cs.ucla.edu".toList,
    "+34.068930-118.445127".toList, "1520023934.918963997".toList⟩

/-- Witness record for claim C2: an incoming AT update with client_time 200. -/
def ciW2 : ClientInfo :=
  ⟨"Bailey".toList, ⟨5, 1⟩, "cli".toList, "+1.0-2.0".toList, "200".toList⟩

def msgW2 : Str := "AT Bailey +0.5 cli +1.0-2.0 200".toList

/-- Witness state for claim C2: the incumbent for cli has client_time 100. -/
def stW2 : ServerState :=
  ⟨"Bona".toList, ["Campbell".toList], ["Campbell".toList], [],
    [("cli".toList, ciOldC2)]⟩

/-- The state after stW2 accepts msgW2. -/
def stW2b : ServerState :=
  ⟨"Bona".toList, ["Campbell".toList], ["Campbell".toList],
    ["Bailey:cli:200".toList], [("cli".toList, ciW2)]⟩

/-- Witness record and message for claim C6. -/
def ciW6 : ClientInfo :=
  ⟨"Bailey".toList, ⟨5, 1⟩, "cli".toList, "+1.0-2.0".toList, "100".toList⟩

def msgW6 : Str := "AT Bailey +0.5 cli +1.0-2.0 100".toList

/-- Witness state for claim C6: the fingerprint of msgW6 is already seen. -/
def stW6 : ServerState :=
  ⟨"Bona".toList, ["Bailey".toList], ["Bailey".toList],
    ["Bailey:cli:100".toList], [("cli".toList, ciW6)]⟩

/-- Witness record and message for claim C7. -/
def ciW7 : ClientInfo :=
  ⟨"Bailey".toList, ⟨5, 1⟩, "cli".toList, "+1.0-2.0".toList, "100".toList⟩

def msgW7 : Str := "AT Bailey +0.5 cli +1.0-2.0 100".toList

/-- Witness state for claim C7: Clark and Bailey connected, Campbell not. -/
def stW7 : ServerState :=
  ⟨"Bona".toList, ["Clark".toList, "Campbell".toList, "Bailey".toList],
    ["Clark".toList, "Bailey".toList], [], []⟩

/-- The state after stW7 accepts msgW7 from Clark. -/
def stW7b : ServerState :=
  ⟨"Bona".toList, ["Clark".toList, "Campbell".toList, "Bailey".toList],
    ["Clark".toList, "Bailey".toList], ["Bailey:cli:100".toList],
    [("cli".toList, ciW7)]⟩

/-- Witness state for claim C8. -/
def stW8 : ServerState := ⟨"Bona".toList, [], [], [], []⟩

theorem charVal_digitChar (d : Nat) (h : d < 10) : charVal (digitChar d) = d := by
  interval_cases d <;> decide

theorem isDigit_digitChar (d : Nat) (h : d < 10) : (digitChar d).isDigit = true := by
  interval_cases d <;> decide

theorem digitsLAux_fuel (n : Nat) :
    ∀ f g : Nat, n ≤ f → n ≤ g → digitsLAux f n = digitsLAux g n := by
  induction n using Nat.strong_induction_on with
  | _ n ih =>
    intro f g hf hg
    match n, f, g, hf, hg with
    | 0, f, g, _, _ =>
      cases f <;> cases g <;> rfl
    | n + 1, f + 1, g + 1, hf, hg =>
      unfold digitsLAux
      have hlt : (n + 1) / 10 < n + 1 := Nat.div_lt_self (by omega) (by norm_num)
      rw [ih ((n + 1) / 10) hlt f g (by omega) (by omega)]

theorem digitsL_succ (n : Nat) (hn : n ≠ 0) :
    digitsL n = digitChar (n % 10) :: digitsL (n / 10) := by
  match n, hn with
  | n + 1, _ =>
    show digitsLAux (n + 1) (n + 1) =
      digitChar ((n + 1) % 10) :: digitsLAux ((n + 1) / 10) ((n + 1) / 10)
    have h1 : digitsLAux (n + 1) (n + 1) =
        digitChar ((n + 1) % 10) :: digitsLAux n ((n + 1) / 10) := rfl
    rw [h1]
    exact congrArg _ (digitsLAux_fuel ((n + 1) / 10) n ((n + 1) / 10) (by omega) (by omega))

theorem digitsL_all_digit (n : Nat) : ∀ c ∈ digitsL n, c.isDigit = true := by
  induction n using Nat.strong_induction_on with
  | _ n ih =>
    by_cases h : n = 0
    · subst h
      intro c hc
      simp [digitsL, digitsLAux] at hc
    · rw [digitsL_succ n h]
      intro c hc
      rcases List.mem_cons.mp hc with rfl | hmem
      · exact isDigit_digitChar _ (Nat.mod_lt _ (by norm_num))
      · exact ih (n / 10) (Nat.div_lt_self (Nat.pos_of_ne_zero h) (by norm_num)) c hmem

theorem printNat_all_digit (n : Nat) : ∀ c ∈ printNat n, c.isDigit = true := by
  unfold printNat
  split
  · intro c hc
    simp only [List.mem_singleton] at hc
    subst hc
    decide
  · intro c hc
    exact digitsL_all_digit n c (List.mem_reverse.mp hc)

theorem printNat_ne_nil (n : Nat) : printNat n ≠ [] := by
  unfold printNat
  split
  · simp
  · rename_i h
    rw [digitsL_succ n h]
    simp

theorem digit_not_ws (c : Char) (h : c.isDigit = true) : c.isWhitespace = false := by
  have h1 : c ≠ ' ' := by rintro rfl; exact absurd h (by decide)
  have h2 : c ≠ '\t' := by rintro rfl; exact absurd h (by decide)
  have h3 : c ≠ '\r' := by rintro rfl; exact absurd h (by decide)
  have h4 : c ≠ '\n' := by rintro rfl; exact absurd h (by decide)
  simp [Char.isWhitespace, h1, h2, h3, h4]

theorem digit_ne_sign (c : Char) (h : c.isDigit = true) : c ≠ '+' ∧ c ≠ '-' := by
  constructor <;> rintro rfl <;> exact absurd h (by decide)

theorem toNatVal_shift (l : Str) :
    ∀ init : Nat, l.foldl (fun a c => a * 10 + charVal c) init =
      init * 10 ^ l.length + toNatVal l := by
  induction l with
  | nil => intro init; simp [toNatVal]
  | cons c t ih =>
    intro init
    simp only [List.foldl_cons, List.length_cons, toNatVal]
    rw [ih (init * 10 + charVal c), ih (0 * 10 + charVal c)]
    ring

theorem toNatVal_append (a b : Str) :
    toNatVal (a ++ b) = toNatVal a * 10 ^ b.length + toNatVal b := by
  unfold toNatVal
  rw [List.foldl_append, toNatVal_shift]
  rfl

theorem toNatVal_digitsL (n : Nat) : toNatVal (digitsL n).reverse = n := by
  induction n using Nat.strong_induction_on with
  | _ n ih =>
    by_cases h : n = 0
    · subst h
      rfl
    · rw [digitsL_succ n h]
      rw [List.reverse_cons, toNatVal_append]
      rw [ih (n / 10) (Nat.div_lt_self (Nat.pos_of_ne_zero h) (by norm_num))]
      have hc : toNatVal [digitChar (n % 10)] = n % 10 := by
        simp [toNatVal, charVal_digitChar _ (Nat.mod_lt _ (by norm_num))]
      rw [hc]
      simp only [List.length_singleton, pow_one]
      omega

theorem toNatVal_printNat (n : Nat) : toNatVal (printNat n) = n := by
  unfold printNat
  split
  · rename_i h
    subst h
    decide
  · exact toNatVal_digitsL n

theorem toNatVal_replicate_zero (k : Nat) : toNatVal (List.replicate k '0') = 0 := by
  induction k with
  | zero => rfl
  | succ k ih =>
    rw [List.replicate_succ, toNatVal]
    simp only [List.foldl_cons]
    have : (0 : Nat) * 10 + charVal '0' = 0 := by decide
    rw [this]
    exact ih

theorem takeWhile_all_app (p : Char → Bool) (l r : List Char)
    (h : ∀ c ∈ l, p c = true) (h2 : ∀ c, r.head? = some c → p c = false) :
    (l ++ r).takeWhile p = l ∧ (l ++ r).dropWhile p = r := by
  induction l with
  | nil =>
    cases r with
    | nil => simp
    | cons c t =>
      have := h2 c rfl
      simp [List.takeWhile_cons, List.dropWhile_cons, this]
  | cons c t ih =>
    have hc := h c (by simp)
    have ih2 := ih (fun c hc => h c (by simp [hc]))
    simp [List.takeWhile_cons, List.dropWhile_cons, hc, ih2.1, ih2.2]


theorem padded_all_digit (n e : Nat) :
    ∀ c ∈ List.replicate (e + 1 - (printNat n).length) '0' ++ printNat n,
      c.isDigit = true := by
  intro c hc
  rcases List.mem_append.mp hc with h | h
  · rw [List.eq_of_mem_replicate h]; decide
  · exact printNat_all_digit n c h

theorem norm_self (m : Int) (e : Nat) (h : e = 0 ∨ m % 10 ≠ 0) :
    Dec.norm m e = ⟨m, e⟩ := by
  unfold Dec.norm
  cases e with
  | zero => rfl
  | succ e =>
    rcases h with h | h
    · exact absurd h (by omega)
    · rw [normAux, if_neg h]

theorem norm_mul10 (m : Int) : Dec.norm (m * 10) 1 = ⟨m, 0⟩ := by
  unfold Dec.norm
  rw [normAux, if_pos (Int.mul_emod_left m 10), Int.mul_ediv_cancel m (by norm_num)]
  rfl

theorem parseDecAux_printUnsigned_zero (sg : Int) (n : Nat) :
    parseDecAux sg (printUnsigned n 0) = some ⟨sg * n, 0⟩ := by
  have hpu : printUnsigned n 0 = printNat n ++ ['.', '0'] := by
    unfold printUnsigned; rw [if_pos rfl]
  have htd := takeWhile_all_app Char.isDigit (printNat n) ['.', '0']
    (printNat_all_digit n)
    (by intro c hc; simp only [List.head?_cons, Option.some_inj] at hc; subst hc; decide)
  rw [hpu]
  unfold parseDecAux
  rw [htd.1, htd.2]
  have h1 : List.dropWhile Char.isDigit ['0'] = ([] : Str) := by decide
  have h2 : List.takeWhile Char.isDigit ['0'] = (['0'] : Str) := by decide
  simp only [h1, h2]
  rw [if_pos ⟨trivial, by simp [printNat_ne_nil n]⟩]
  simp only [List.length_singleton, pow_one]
  have h0 : toNatVal ['0'] = 0 := by decide
  rw [toNatVal_printNat, h0]
  rw [show (sg * ((n : Int) * 10 + ((0 : Nat) : Int)) : Int) = sg * (n : Int) * 10 by push_cast; ring]
  rw [norm_mul10]

theorem parseDecAux_take_drop (sg : Int) (ds : Str) (e : Nat)
    (hall : ∀ c ∈ ds, c.isDigit = true) (hL : e < ds.length) :
    parseDecAux sg (ds.take (ds.length - e) ++ '.' :: ds.drop (ds.length - e)) =
      some (Dec.norm (sg * toNatVal ds) e) := by
  have htake : ∀ c ∈ ds.take (ds.length - e), c.isDigit = true :=
    fun c hc => hall c (List.mem_of_mem_take hc)
  have hdrop : ∀ c ∈ ds.drop (ds.length - e), c.isDigit = true :=
    fun c hc => hall c (List.mem_of_mem_drop hc)
  have htd := takeWhile_all_app Char.isDigit (ds.take (ds.length - e))
    ('.' :: ds.drop (ds.length - e)) htake
    (by intro c hc; simp only [List.head?_cons, Option.some_inj] at hc; subst hc; decide)
  unfold parseDecAux
  rw [htd.1, htd.2]
  have h1 : List.dropWhile Char.isDigit (ds.drop (ds.length - e)) = [] :=
    List.dropWhile_eq_nil_iff.mpr hdrop
  have h2 : List.takeWhile Char.isDigit (ds.drop (ds.length - e)) =
      ds.drop (ds.length - e) := List.takeWhile_eq_self_iff.mpr hdrop
  simp only [h1, h2]
  have htne : ds.take (ds.length - e) ≠ [] := by
    rw [← List.length_pos, List.length_take]
    omega
  rw [if_pos]
  · have hdl : (ds.drop (ds.length - e)).length = e := by
      rw [List.length_drop]; omega
    rw [hdl]
    have h3 := toNatVal_append (ds.take (ds.length - e)) (ds.drop (ds.length - e))
    rw [List.take_append_drop, hdl] at h3
    have hval : ((toNatVal (ds.take (ds.length - e)) : Int)) * 10 ^ e +
        (toNatVal (ds.drop (ds.length - e)) : Int) = (toNatVal ds : Int) := by
      exact_mod_cast h3.symm
    rw [hval]
  · exact ⟨by simp, fun hcon => htne hcon.1⟩

theorem parseDecAux_printUnsigned_pos (sg : Int) (hsg : sg = 1 ∨ sg = -1) (n e : Nat)
    (he : e ≠ 0) (hn : n % 10 ≠ 0) :
    parseDecAux sg (printUnsigned n e) = some ⟨sg * n, e⟩ := by
  have hk : 1 ≤ (printNat n).length := List.length_pos.mpr (printNat_ne_nil n)
  have hpu : printUnsigned n e =
      (List.replicate (e + 1 - (printNat n).length) '0' ++ printNat n).take
        ((List.replicate (e + 1 - (printNat n).length) '0' ++ printNat n).length - e) ++
      '.' :: (List.replicate (e + 1 - (printNat n).length) '0' ++ printNat n).drop
        ((List.replicate (e + 1 - (printNat n).length) '0' ++ printNat n).length - e) := by
    rw [printUnsigned, if_neg he]
  have hL : e < (List.replicate (e + 1 - (printNat n).length) '0' ++ printNat n).length := by
    rw [List.length_append, List.length_replicate]
    omega
  rw [hpu, parseDecAux_take_drop sg _ e (padded_all_digit n e) hL]
  have hdsv : toNatVal (List.replicate (e + 1 - (printNat n).length) '0' ++ printNat n) = n := by
    rw [toNatVal_append, toNatVal_replicate_zero, toNatVal_printNat]
    simp
  rw [hdsv, norm_self _ _ (Or.inr (by rcases hsg with rfl | rfl <;> omega))]

theorem printUnsigned_ne_nil (n e : Nat) : printUnsigned n e ≠ [] := by
  unfold printUnsigned
  split
  · simp [printNat_ne_nil n]
  · rename_i he
    intro hcon
    rcases List.append_eq_nil.mp hcon with ⟨_, h2⟩
    exact List.cons_ne_nil _ _ h2

theorem printUnsigned_head_digit (n e : Nat) (c : Char) (r : Str)
    (h : printUnsigned n e = c :: r) : c.isDigit = true := by
  unfold printUnsigned at h
  split at h
  · obtain ⟨c0, r0, hcr⟩ := List.exists_cons_of_ne_nil (printNat_ne_nil n)
    rw [hcr] at h
    simp only [List.cons_append, List.cons.injEq] at h
    rw [← h.1]
    exact printNat_all_digit n c0 (by rw [hcr]; simp)
  · rename_i he
    have hk : 1 ≤ (printNat n).length := List.length_pos.mpr (printNat_ne_nil n)
    have hL : e < (List.replicate (e + 1 - (printNat n).length) '0' ++ printNat n).length := by
      rw [List.length_append, List.length_replicate]
      omega
    have htne : (List.replicate (e + 1 - (printNat n).length) '0' ++ printNat n).take
        ((List.replicate (e + 1 - (printNat n).length) '0' ++ printNat n).length - e) ≠ [] := by
      rw [← List.length_pos, List.length_take]
      omega
    obtain ⟨c0, r0, hcr⟩ := List.exists_cons_of_ne_nil htne
    rw [hcr] at h
    simp only [List.cons_append, List.cons.injEq] at h
    rw [← h.1]
    exact padded_all_digit n e c0 (List.mem_of_mem_take (by rw [hcr]; simp))

theorem natAbs_mod10 (m : Int) (h : m % 10 ≠ 0) : m.natAbs % 10 ≠ 0 := by
  intro hc
  apply h
  have h2 : (10 : Nat) ∣ m.natAbs := Nat.dvd_of_mod_eq_zero hc
  have h3 : (10 : Int) ∣ m :=
    Int.natAbs_dvd_natAbs.mp (by simpa using h2)
  omega

theorem parse_printDec (d : Dec) (h : d.isNorm) : parseDecimal (printDec d) = some d := by
  obtain ⟨m, e⟩ := d
  simp only [Dec.isNorm] at h
  unfold printDec parseDecimal
  dsimp only
  rcases lt_or_ge m 0 with hm | hm
  · rw [if_pos hm]
    simp only [List.singleton_append]
    have hs : stripSign ('-' :: printUnsigned m.natAbs e) = (-1, printUnsigned m.natAbs e) := by
      simp [stripSign]
    rw [hs]
    rcases Nat.eq_zero_or_pos e with rfl | he
    · rw [parseDecAux_printUnsigned_zero]
      have hnm : (-1 * (m.natAbs : Int)) = m := by omega
      rw [hnm]
    · rcases h with h | h
      · omega
      · rw [parseDecAux_printUnsigned_pos (-1) (Or.inr rfl) m.natAbs e (by omega)
          (natAbs_mod10 m h)]
        have hnm : (-1 * (m.natAbs : Int)) = m := by omega
        rw [hnm]
  · rw [if_neg (by omega)]
    simp only [List.nil_append]
    obtain ⟨c, r, hcr⟩ := List.exists_cons_of_ne_nil (printUnsigned_ne_nil m.natAbs e)
    have hcd := printUnsigned_head_digit m.natAbs e c r hcr
    have hcs := digit_ne_sign c hcd
    have hs : stripSign (printUnsigned m.natAbs e) = (1, printUnsigned m.natAbs e) := by
      rw [hcr]
      simp [stripSign, hcs.1, hcs.2]
    rw [hs]
    rcases Nat.eq_zero_or_pos e with rfl | he
    · rw [parseDecAux_printUnsigned_zero]
      have hnm : (1 * (m.natAbs : Int)) = m := by omega
      rw [hnm]
    · rcases h with h | h
      · omega
      · rw [parseDecAux_printUnsigned_pos 1 (Or.inl rfl) m.natAbs e (by omega)
          (natAbs_mod10 m h)]
        have hnm : (1 * (m.natAbs : Int)) = m := by omega
        rw [hnm]


theorem parse_format_time_diff (d : Dec) (h : d.isNorm) :
    parse_time_diff (format_time_diff d) = some d := by
  unfold format_time_diff
  rcases le_or_lt 0 d.m with hm | hm
  · rw [if_pos hm]
    simp only [parse_time_diff]
    rw [if_pos trivial]
    exact parse_printDec d h
  · rw [if_neg (by omega)]
    have hpd : printDec d = '-' :: printUnsigned d.m.natAbs d.e := by
      unfold printDec
      rw [if_pos hm]
      rfl
    rw [hpd]
    simp only [parse_time_diff]
    rw [if_neg (by decide), ← hpd]
    exact parse_printDec d h


theorem printUnsigned_not_ws (n e : Nat) :
    ∀ c ∈ printUnsigned n e, c.isWhitespace = false := by
  unfold printUnsigned
  split
  · intro c hc
    rcases List.mem_append.mp hc with h | h
    · exact digit_not_ws c (printNat_all_digit n c h)
    · rcases List.mem_cons.mp h with rfl | h2
      · decide
      · rcases List.mem_singleton.mp h2 with rfl
        decide
  · intro c hc
    rcases List.mem_append.mp hc with h | h
    · exact digit_not_ws c (padded_all_digit n e c (List.mem_of_mem_take h))
    · rcases List.mem_cons.mp h with rfl | h2
      · decide
      · exact digit_not_ws c (padded_all_digit n e c (List.mem_of_mem_drop h2))

theorem format_time_diff_wsFree (d : Dec) : wsFree (format_time_diff d) := by
  unfold format_time_diff printDec
  constructor
  · split
    · simp
    · split
      · simp
      · simp [printUnsigned_ne_nil]
  · intro c hc
    split at hc
    · rcases List.mem_cons.mp hc with rfl | h2
      · decide
      · rcases List.mem_append.mp h2 with h3 | h3
        · split at h3
          · rcases List.mem_singleton.mp h3 with rfl
            decide
          · simp at h3
        · exact printUnsigned_not_ws _ _ c h3
    · rcases List.mem_append.mp hc with h3 | h3
      · split at h3
        · rcases List.mem_singleton.mp h3 with rfl
          decide
        · simp at h3
      · exact printUnsigned_not_ws _ _ c h3

theorem splitWsAux_token (t : Str) (h : ∀ c ∈ t, c.isWhitespace = false) :
    ∀ s acc, splitWsAux (t ++ s) acc = splitWsAux s (t.reverse ++ acc) := by
  induction t with
  | nil => intro s acc; simp
  | cons c r ih =>
    intro s acc
    have hc := h c (by simp)
    simp only [List.cons_append, splitWsAux, hc, Bool.false_eq_true, if_false,
      List.reverse_cons, List.append_assoc, List.singleton_append]
    exact ih (fun c hc => h c (by simp [hc])) s (c :: acc)

theorem splitWs_token_space (t s : Str) (hne : t ≠ [])
    (h : ∀ c ∈ t, c.isWhitespace = false) :
    splitWs (t ++ ' ' :: s) = t :: splitWs s := by
  unfold splitWs
  rw [splitWsAux_token t h (' ' :: s) []]
  have : splitWsAux (' ' :: s) (t.reverse ++ []) =
      (t.reverse ++ []).reverse :: splitWsAux s [] := by
    simp only [splitWsAux, Char.isWhitespace]
    rw [if_pos (by decide), if_neg (by simpa using hne)]
  rw [this]
  simp

theorem splitWs_single_token (t : Str) (hne : t ≠ [])
    (h : ∀ c ∈ t, c.isWhitespace = false) :
    splitWs t = [t] := by
  unfold splitWs
  rw [show t = t ++ [] by simp, splitWsAux_token t h [] []]
  simp only [splitWsAux]
  rw [if_neg (by simpa using hne)]
  simp


theorem splitWs_joinSp :
    ∀ ts : List Str, (∀ t ∈ ts, wsFree t) → ts ≠ [] → splitWs (joinSp ts) = ts
  | [], _, hne => absurd rfl hne
  | [t], h, _ => by
      have h1 := h t (by simp)
      rw [show joinSp [t] = t from rfl]
      exact splitWs_single_token t h1.1 h1.2
  | t :: t2 :: rest, h, _ => by
      have h1 := h t (by simp)
      rw [show joinSp (t :: t2 :: rest) = t ++ ' ' :: joinSp (t2 :: rest) from rfl]
      rw [splitWs_token_space t _ h1.1 h1.2]
      rw [splitWs_joinSp (t2 :: rest) (fun u hu => h u (by simp [hu])) (by simp)]

theorem splitWs_flood (ci : ClientInfo)
    (hsid : wsFree ci.server_id) (hcid : wsFree ci.client_id)
    (hloc : wsFree ci.location) (hts : wsFree ci.timestamp) :
    splitWs (format_flood_message ci.server_id ci) =
      ["AT".toList, ci.server_id, format_time_diff ci.time_diff,
        ci.client_id, ci.location, ci.timestamp] := by
  unfold format_flood_message
  apply splitWs_joinSp
  · intro t ht
    simp only [List.mem_cons, List.not_mem_nil, or_false] at ht
    rcases ht with rfl | rfl | rfl | rfl | rfl | rfl
    · exact ⟨by decide, by decide⟩
    · exact hsid
    · exact format_time_diff_wsFree ci.time_diff
    · exact hcid
    · exact hloc
    · exact hts
  · simp

theorem parse_format_flood (ci : ClientInfo) (hn : ci.time_diff.isNorm)
    (hsid : wsFree ci.server_id) (hcid : wsFree ci.client_id)
    (hloc : wsFree ci.location) (hts : wsFree ci.timestamp) :
    parse_at_message (format_flood_message ci.server_id ci) = some ci := by
  unfold parse_at_message
  rw [splitWs_flood ci hsid hcid hloc hts]
  dsimp only
  rw [if_pos rfl, parse_format_time_diff _ hn]

theorem lookup_setStore_self (k : Str) (v : ClientInfo) :
    ∀ s : Store, lookupStore k (setStore k v s) = some v := by
  intro s
  induction s with
  | nil => simp [setStore, lookupStore]
  | cons p r ih =>
    unfold setStore
    by_cases hk : p.1 = k
    · rw [if_pos hk]
      simp [lookupStore]
    · rw [if_neg hk]
      unfold lookupStore
      rw [if_neg hk]
      exact ih

theorem propagate_state_indep (st : ServerState) (seen2 : List Str) (store2 : Store)
    (ci : ClientInfo) (ex : List Str) :
    propagate_location { st with seen := seen2, store := store2 } ci ex =
      propagate_location st ci ex := rfl

theorem psm_seen (st : ServerState) (src msg : Str) (ci : ClientInfo)
    (hstart : startsWithAT msg = true)
    (hparse : parse_at_message msg = some ci)
    (hseen : generate_message_id ci.server_id ci.client_id ci.timestamp ∈ st.seen) :
    process_server_message st src msg = some (st, []) := by
  unfold process_server_message
  simp only [hstart, if_true, hparse]
  unfold has_seen_message
  rw [if_pos hseen]
  simp

theorem psm_not_parsed (st : ServerState) (src msg : Str)
    (hparse : parse_at_message msg = none) :
    process_server_message st src msg = some (st, []) := by
  unfold process_server_message
  split
  · rw [hparse]
  · rfl

theorem psm_accepted (st : ServerState) (src msg : Str) (ci : ClientInfo)
    (hstart : startsWithAT msg = true)
    (hparse : parse_at_message msg = some ci)
    (hseen : generate_message_id ci.server_id ci.client_id ci.timestamp ∉ st.seen)
    (hacc : storeAccepts st.store ci = some true) :
    process_server_message st src msg =
      some ({ st with
          seen := addSeen (generate_message_id ci.server_id ci.client_id ci.timestamp)
            (has_seen_message (generate_message_id ci.server_id ci.client_id ci.timestamp)
              st.seen).2,
          store := setStore ci.client_id ci st.store },
        propagate_location st ci [src]) := by
  unfold process_server_message
  simp only [hstart, if_true, hparse]
  have h1 : (has_seen_message (generate_message_id ci.server_id ci.client_id ci.timestamp)
      st.seen).1 = false := by
    unfold has_seen_message
    rw [if_neg hseen]
    split <;> rfl
  rw [h1]
  simp only [Bool.false_eq_true, if_false]
  rw [hacc]
  rfl

theorem psm_rejected (st : ServerState) (src msg : Str) (ci : ClientInfo)
    (hstart : startsWithAT msg = true)
    (hparse : parse_at_message msg = some ci)
    (hseen : generate_message_id ci.server_id ci.client_id ci.timestamp ∉ st.seen)
    (hacc : storeAccepts st.store ci = some false) :
    process_server_message st src msg =
      some ({ st with
          seen := addSeen (generate_message_id ci.server_id ci.client_id ci.timestamp)
            (has_seen_message (generate_message_id ci.server_id ci.client_id ci.timestamp)
              st.seen).2 }, []) := by
  unfold process_server_message
  simp only [hstart, if_true, hparse]
  have h1 : (has_seen_message (generate_message_id ci.server_id ci.client_id ci.timestamp)
      st.seen).1 = false := by
    unfold has_seen_message
    rw [if_neg hseen]
    split <;> rfl
  rw [h1]
  simp only [Bool.false_eq_true, if_false]
  rw [hacc]

theorem psm_exception (st : ServerState) (src msg : Str) (ci : ClientInfo)
    (hstart : startsWithAT msg = true)
    (hparse : parse_at_message msg = some ci)
    (hseen : generate_message_id ci.server_id ci.client_id ci.timestamp ∉ st.seen)
    (hacc : storeAccepts st.store ci = none) :
    process_server_message st src msg = none := by
  unfold process_server_message
  simp only [hstart, if_true, hparse]
  have h1 : (has_seen_message (generate_message_id ci.server_id ci.client_id ci.timestamp)
      st.seen).1 = false := by
    unfold has_seen_message
    rw [if_neg hseen]
    split <;> rfl
  rw [h1]
  simp only [Bool.false_eq_true, if_false]
  rw [hacc]

theorem Dec.lt_iff_toRat (a b : Dec) : Dec.lt a b ↔ a.toRat < b.toRat := by
  unfold Dec.lt Dec.toRat
  rw [div_lt_div_iff₀ (by positivity) (by positivity)]
  constructor
  · intro h
    exact_mod_cast h
  · intro h
    exact_mod_cast h

theorem psm_ignored (st : ServerState) (src msg : Str)
    (hat : startsWithAT msg = false) :
    process_server_message st src msg = some (st, []) := by
  unfold process_server_message
  rw [hat]
  simp

theorem psm_sends (st : ServerState) (src msg : Str) (st2 : ServerState)
    (sends : List (Str × Str))
    (h : process_server_message st src msg = some (st2, sends)) :
    sends = [] ∨ ∃ ci, parse_at_message msg = some ci ∧
      sends = propagate_location st ci [src] := by
  by_cases hat : startsWithAT msg = true
  · cases hp : parse_at_message msg with
    | none =>
      rw [psm_not_parsed st src msg hp] at h
      simp only [Option.some_inj, Prod.mk.injEq] at h
      exact Or.inl h.2.symm
    | some ci =>
      by_cases hseen :
          generate_message_id ci.server_id ci.client_id ci.timestamp ∈ st.seen
      · rw [psm_seen st src msg ci hat hp hseen] at h
        simp only [Option.some_inj, Prod.mk.injEq] at h
        exact Or.inl h.2.symm
      · cases hacc : storeAccepts st.store ci with
        | none =>
          rw [psm_exception st src msg ci hat hp hseen hacc] at h
          exact absurd h (by simp)
        | some b =>
          cases b with
          | false =>
            rw [psm_rejected st src msg ci hat hp hseen hacc] at h
            simp only [Option.some_inj, Prod.mk.injEq] at h
            exact Or.inl h.2.symm
          | true =>
            rw [psm_accepted st src msg ci hat hp hseen hacc] at h
            simp only [Option.some_inj, Prod.mk.injEq] at h
            exact Or.inr ⟨ci, rfl, h.2.symm⟩
  · rw [psm_ignored st src msg (by simpa using hat)] at h
    simp only [Option.some_inj, Prod.mk.injEq] at h
    exact Or.inl h.2.symm

theorem min_double_shift (a : Nat) (i : Nat) :
    min (min (a * 2) 60 * 2 ^ i) 60 = min (a * 2 * 2 ^ i) 60 := by
  rcases le_total (a * 2) 60 with h | h
  · rw [min_eq_left h]
  · rw [min_eq_right h]
    have h1 : 60 ≤ 60 * 2 ^ i := Nat.le_mul_of_pos_right 60 (Nat.pos_pow_of_pos i (by norm_num))
    have h2 : 60 ≤ a * 2 * 2 ^ i := le_trans h (Nat.le_mul_of_pos_right _ (Nat.pos_pow_of_pos i (by norm_num)))
    rw [min_eq_right h1, min_eq_right h2]

theorem runRetry_all_fail (k : Nat) :
    ∀ d : Nat, d ≤ 60 →
      (runRetry d (List.replicate k ConnEvent.fail)).1 =
        (List.range k).map (fun i => min (d * 2 ^ i) 60) := by
  induction k with
  | zero => intro d _; simp [runRetry]
  | succ k ih =>
    intro d hd
    rw [List.replicate_succ]
    show (d :: (runRetry (nextDelay d) (List.replicate k ConnEvent.fail)).1, _).1 = _
    have hnd : nextDelay d ≤ 60 := by
      unfold nextDelay CONNECTION_RETRY_MAX CONNECTION_RETRY_FACTOR
      omega
    dsimp only
    rw [ih (nextDelay d) hnd]
    rw [List.range_succ_eq_map, List.map_cons, List.map_map]
    congr 1
    · simp [min_eq_left hd]
    · apply List.map_congr_left
      intro i _
      show min (nextDelay d * 2 ^ i) 60 = min (d * 2 ^ (i + 1)) 60
      unfold nextDelay CONNECTION_RETRY_MAX CONNECTION_RETRY_FACTOR
      rw [min_double_shift, pow_succ]
      ring_nf

/-- Claim C1 (code bug): an AT line arriving over an accepted inbound
connection is handled by process_command, which has no AT branch: the
state is unchanged, nothing is handed to the gossip path, and the reply
is the unknown-command response "? <line>" - so inbound AT lines are not
deduplicated, stored or re-flooded, contrary to the claim. -/
theorem C1_inbound_at_answered_unknown :
    process_command stC1 ⟨0, 0⟩ [] atLineC1 = some (qmark atLineC1, stC1, []) := by
  rfl

/-- Claim C2 counterexample: a valid IAMAT carrying client_time 50
replaces a stored record whose client_time is 100 (which the peer-path
rule would reject), so the store moves backwards in client_time and the
claim fails on the IAMAT update path. -/
theorem C2_iamat_overwrites_backwards :
    (process_command stC2 ⟨0, 0⟩ [] "IAMAT cli +1.0-2.0 50".toList).map
      (fun r => lookupStore "cli".toList r.2.1.store) = some (some ciNewC2) ∧
    ciNewC2 ≠ ciOldC2 ∧
    storeAccepts stC2.store ciNewC2 = some false :=
  ⟨rfl, by decide, by decide⟩

/-- Claim C2 amended: on the AT-from-peer path the stored record is
replaced iff the store accepts the record - no incumbent, or the new
client_time strictly exceeds the incumbent's, compared as decimals
(storeAccepts); on the IAMAT path the incoming record replaces the
incumbent unconditionally. -/
theorem C2_lww_on_peer_path_only :
    (∀ st : ServerState, ∀ src msg : Str, ∀ st2 : ServerState,
      ∀ sends : List (Str × Str), ∀ ci old : ClientInfo,
      process_server_message st src msg = some (st2, sends) →
      startsWithAT msg = true →
      parse_at_message msg = some ci →
      generate_message_id ci.server_id ci.client_id ci.timestamp ∉ st.seen →
      lookupStore ci.client_id st.store = some old →
      lookupStore ci.client_id st2.store =
        some (if storeAccepts st.store ci = some true then ci else old)) ∧
    (∀ st : ServerState, ∀ t : Dec, ∀ places cmd cid loc ts : Str, ∀ ct : Dec,
      splitWs cmd = ["IAMAT".toList, cid, loc, ts] →
      validate_iamat_command ["IAMAT".toList, cid, loc, ts] = true →
      parseDecimal ts = some ct →
      (process_command st t places cmd).map
          (fun r => lookupStore cid r.2.1.store) =
        some (some ⟨st.server_id, Dec.sub t ct, cid, loc, ts⟩)) := by
  constructor
  · intro st src msg st2 sends ci old h hat hp hseen hold
    cases hacc : storeAccepts st.store ci with
    | none =>
      rw [psm_exception st src msg ci hat hp hseen hacc] at h
      exact absurd h (by simp)
    | some b =>
      cases b with
      | false =>
        rw [psm_rejected st src msg ci hat hp hseen hacc] at h
        simp only [Option.some_inj, Prod.mk.injEq] at h
        rw [← h.1]
        simpa using hold
      | true =>
        rw [psm_accepted st src msg ci hat hp hseen hacc] at h
        simp only [Option.some_inj, Prod.mk.injEq] at h
        rw [← h.1]
        simpa using lookup_setStore_self ci.client_id ci st.store
  · intro st t places cmd cid loc ts ct hsp hval hts
    unfold process_command
    rw [hsp]
    dsimp only
    rw [if_pos rfl, hval]
    simp only [if_true]
    rw [hts]
    simp [lookup_setStore_self]

/-- Claim C3 (code bug): a WHATSAT naming a client present in the store
writes nothing back at all: the success branch executes the statement
"from api import parse_location, get_nearby_places" and api.py line 89
holds an unterminated string literal, so the import raises SyntaxError,
which only the outer connection handler catches by closing the
connection; no AT line, no places body and no newlines are sent. -/
theorem C3_whatsat_no_reply :
    lookupStore "kiwi.cs.ucla.edu".toList stC3.store = some ciC3 ∧
    clientReplyBytes stC3 ⟨0, 0⟩ "\x7b\x7d".toList "WHATSAT kiwi.cs.ucla.edu 10 5".toList = none :=
  ⟨rfl, rfl⟩

/-- Claim C4: the canonical AT line is reproduced byte-exactly through
the flood.  For a record whose skew is a printed float value (normal
form) and whose fields are whitespace-free tokens - which holds for
every record built by an origin server - parsing its flood line returns
exactly that record, and re-formatting whatever was parsed yields the
identical line, so every hop re-broadcasts the origin bytes. -/
theorem C4_canonical_line_roundtrip :
    ∀ ci : ClientInfo, ci.time_diff.isNorm →
      wsFree ci.server_id → wsFree ci.client_id →
      wsFree ci.location → wsFree ci.timestamp →
      parse_at_message (format_flood_message ci.server_id ci) = some ci ∧
      ∀ ci2, parse_at_message (format_flood_message ci.server_id ci) = some ci2 →
        format_flood_message ci2.server_id ci2 = format_flood_message ci.server_id ci := by
  intro ci hn h1 h2 h3 h4
  have h := parse_format_flood ci hn h1 h2 h3 h4
  refine ⟨h, fun ci2 h5 => ?_⟩
  rw [h] at h5
  rw [← Option.some_inj.mp h5]

/-- Claim C5 counterexample: a WHATSAT whose radius is -5 is not
answered "? <line>": the dispatcher checks only the upper bounds, so the
command proceeds and is answered "? No information available for cli". -/
theorem C5_negative_radius_not_rejected :
    process_command stC5 ⟨0, 0⟩ [] "WHATSAT cli -5 5".toList =
      some (noInfo "cli".toList, stC5, []) ∧
    noInfo "cli".toList ≠ qmark "WHATSAT cli -5 5".toList :=
  ⟨rfl, by decide⟩

/-- Claim C5 amended: a WHATSAT is answered "? <original line>" whenever
it does not consist of exactly 4 tokens whose radius and limit parse as
integers with radius at most 50 and limit at most 20; no lower bound is
checked, and a negative radius or limit is accepted rather than
rejected. -/
theorem C5_whatsat_rejections :
    (∀ st : ServerState, ∀ t : Dec, ∀ places cmd : Str, ∀ rest : List Str,
      splitWs cmd = "WHATSAT".toList :: rest →
      whatsatOk rest = false →
      process_command st t places cmd = some (qmark cmd, st, [])) ∧
    process_command stC5 ⟨0, 0⟩ [] "WHATSAT cli -5 -3".toList =
      some (noInfo "cli".toList, stC5, []) := by
  constructor
  · intro st t places cmd rest hsp hok
    unfold process_command
    rw [hsp]
    dsimp only
    rw [if_neg (by decide), if_pos rfl]
    match rest, hok with
    | [], _ => rfl
    | [a], _ => rfl
    | [a, b], _ => rfl
    | a :: b :: c :: d :: r, _ => rfl
    | [a, b, c], hok =>
      dsimp only
      unfold whatsatOk at hok
      dsimp only at hok
      cases hb : parseIntPy b with
      | none => rfl
      | some r =>
        cases hc : parseIntPy c with
        | none => rfl
        | some l =>
          rw [hb, hc] at hok
          simp only [decide_eq_false_iff_not, not_and, not_le] at hok
          dsimp only
          rw [if_pos (by omega)]
  · rfl

/-- Claim C6: an AT record whose fingerprint is already in the seen set
is dropped: the returned state equals the old state (store and seen set
untouched) and nothing is flooded to any neighbor. -/
theorem C6_duplicate_message_dropped :
    ∀ st : ServerState, ∀ src msg : Str, ∀ ci : ClientInfo,
      startsWithAT msg = true →
      parse_at_message msg = some ci →
      generate_message_id ci.server_id ci.client_id ci.timestamp ∈ st.seen →
      process_server_message st src msg = some (st, []) := by
  intro st src msg ci hat hp hseen
  exact psm_seen st src msg ci hat hp hseen

/-- Claim C7: no flood write ever targets the source of the message, and
when an AT record from source S is accepted by the store, the line is
sent exactly to the currently connected neighbors other than S, in
neighbor-list order. -/
theorem C7_flood_spares_source :
    ∀ st : ServerState, ∀ src msg : Str, ∀ st2 : ServerState,
      ∀ sends : List (Str × Str),
      process_server_message st src msg = some (st2, sends) →
      (∀ p ∈ sends, p.1 ≠ src) ∧
      (∀ ci, startsWithAT msg = true → parse_at_message msg = some ci →
        generate_message_id ci.server_id ci.client_id ci.timestamp ∉ st.seen →
        storeAccepts st.store ci = some true →
        sends = (st.neighbors.filter
            (fun n => decide (n ≠ src ∧ n ∈ st.connections))).map
          (fun n => (n, format_flood_message ci.server_id ci))) := by
  intro st src msg st2 sends h
  constructor
  · intro p hp
    rcases psm_sends st src msg st2 sends h with rfl | ⟨ci, hci, rfl⟩
    · simp at hp
    · unfold propagate_location at hp
      obtain ⟨n, hn, rfl⟩ := List.mem_map.mp hp
      have hfil := List.mem_filter.mp hn
      have hd := of_decide_eq_true hfil.2
      intro hc
      exact hd.1 (by rw [List.mem_singleton]; exact hc)
  · intro ci hat hp hseen hacc
    rw [psm_accepted st src msg ci hat hp hseen hacc] at h
    simp only [Option.some_inj, Prod.mk.injEq] at h
    rw [← h.2]
    unfold propagate_location
    dsimp only
    congr 1
    apply List.filter_congr
    intro n _
    simp [List.mem_singleton]

/-- Claim C8 counterexample: the line "AT Svr 0.5 cli +1.0-2.0 100"
is parsed into a valid record although its skew token 0.5 carries no
explicit sign. -/
theorem C8_unsigned_skew_parses :
    parse_at_message msgC8 = some ciC8 ∧
    (splitWs msgC8).get? 2 = some "0.5".toList ∧
    "0.5".toList.head? ≠ some '+' ∧ "0.5".toList.head? ≠ some '-' := by
  refine ⟨by decide, by decide, by decide, by decide⟩

/-- Claim C8 amended: a line is parsed into a valid record iff it has at
least 6 tokens, its first token is AT, and its skew field parses as a
decimal after an optional leading plus is stripped - an explicit sign is
not required; a line that does not parse leaves the state unchanged and
floods nothing. -/
theorem C8_at_parse_characterization :
    (∀ msg : Str, (parse_at_message msg).isSome ↔
      (6 ≤ (splitWs msg).length ∧ (splitWs msg).head? = some "AT".toList ∧
        (Option.bind ((splitWs msg).get? 2) parse_time_diff).isSome)) ∧
    (∀ st : ServerState, ∀ src msg : Str,
      parse_at_message msg = none →
      process_server_message st src msg = some (st, [])) := by
  constructor
  · intro msg
    unfold parse_at_message
    match hsp : splitWs msg with
    | [] => simp
    | [p0] => simp
    | [p0, p1] => simp
    | [p0, p1, p2] => simp
    | [p0, p1, p2, p3] => simp
    | [p0, p1, p2, p3, p4] => simp
    | p0 :: p1 :: p2 :: p3 :: p4 :: p5 :: rest =>
      dsimp only
      constructor
      · intro h
        split at h
        · rename_i hat
          refine ⟨by simp, by simp [hat], ?_⟩
          cases htd : parse_time_diff p2 with
          | none => rw [htd] at h; simp at h
          | some td => simp [htd]
        · simp at h
      · rintro ⟨hlen, hhead, htd⟩
        simp only [List.head?_cons, Option.some_inj] at hhead
        rw [if_pos hhead]
        simp only [List.get?_cons_succ, List.get?_cons_zero, Option.bind] at htd
        cases htd2 : parse_time_diff p2 with
        | none => rw [htd2] at htd; simp at htd
        | some td => simp
  · intro st src msg hp
    exact psm_not_parsed st src msg hp

/-- Claim C9 counterexample: after fail, fail, success, fail the loop
sleeps 1, 2 and then 4 seconds - the successful connect did not reset
the delay to 1; the claimed schedule would sleep 1, 2, 1. -/
theorem C9_success_keeps_delay :
    (runRetry 1 [ConnEvent.fail, ConnEvent.fail, ConnEvent.succ, ConnEvent.fail]).1 =
      [1, 2, 4] ∧
    (runRetryReset 1 [ConnEvent.fail, ConnEvent.fail, ConnEvent.succ, ConnEvent.fail]).1 =
      [1, 2, 1] ∧
    (runRetry 1 [ConnEvent.fail, ConnEvent.fail, ConnEvent.succ, ConnEvent.fail]).1 ≠
      (runRetryReset 1 [ConnEvent.fail, ConnEvent.fail, ConnEvent.succ, ConnEvent.fail]).1 := by
  refine ⟨by decide, by decide, by decide⟩

/-- Claim C9 amended: the retry delay starts at the initial 1 s, doubles
after each consecutive failure and is capped at 60 s; a successful
connect leaves the loop's delay untouched, so the loop resumes from its
previous value once the connection ends (only the freshly spawned
reconnect task starts over at the initial delay). -/
theorem C9_backoff_schedule :
    (∀ k : Nat,
      (runRetry CONNECTION_RETRY_INITIAL (List.replicate k ConnEvent.fail)).1 =
        (List.range k).map
          (fun i => min (CONNECTION_RETRY_INITIAL * 2 ^ i) CONNECTION_RETRY_MAX)) ∧
    (∀ d : Nat, ∀ es : List ConnEvent,
      runRetry d (ConnEvent.succ :: es) = runRetry d es) := by
  constructor
  · intro k
    exact runRetry_all_fail k CONNECTION_RETRY_INITIAL (by norm_num [CONNECTION_RETRY_INITIAL])
  · intro d es
    rfl

/-- Claim C10: the colon-joined fingerprint is not injective - the
distinct triples (A:B, C, 100) and (A, B:C, 100) share the fingerprint
A:B:C:100 - and under the collision a fresh update that the store would
accept is treated as already seen and dropped without storing or
flooding. -/
theorem C10_fingerprint_collision :
    ("A:B".toList ≠ "A".toList ∧ "C".toList ≠ "B:C".toList) ∧
    generate_message_id "A:B".toList "C".toList "100".toList =
      generate_message_id "A".toList "B:C".toList "100".toList ∧
    parse_at_message msgC10 = some ciC10 ∧
    storeAccepts stC10.store ciC10 = some true ∧
    process_server_message stC10 "S".toList msgC10 = some (stC10, []) := by
  refine ⟨by decide, rfl, by decide, rfl, by decide⟩

/-- Claim C2 witness: both amended rules applied at concrete inputs -
the peer path keeps the LWW result for client_time 200 over 100, and the
IAMAT path stores the client_time 50 record over the incumbent 100. -/
theorem C2_lww_witness :
    lookupStore ciW2.client_id stW2b.store =
      some (if storeAccepts stW2.store ciW2 = some true then ciW2 else ciOldC2) ∧
    (process_command stC2 ⟨0, 0⟩ [] "IAMAT cli +1.0-2.0 50".toList).map
        (fun r => lookupStore "cli".toList r.2.1.store) =
      some (some ⟨stC2.server_id, Dec.sub ⟨0, 0⟩ ⟨50, 0⟩, "cli".toList,
        "+1.0-2.0".toList, "50".toList⟩) :=
  ⟨C2_lww_on_peer_path_only.1 stW2 "Clark".toList msgW2 stW2b
      [("Campbell".toList, msgW2)] ciW2 ciOldC2 (by decide) (by decide)
      (by decide) (by decide) (by decide),
    C2_lww_on_peer_path_only.2 stC2 ⟨0, 0⟩ [] "IAMAT cli +1.0-2.0 50".toList
      "cli".toList "+1.0-2.0".toList "50".toList ⟨50, 0⟩ (by decide) (by decide)
      (by decide)⟩

/-- Claim C4 witness: the spec example record round-trips. -/
theorem C4_roundtrip_witness :
    parse_at_message (format_flood_message ciW4.server_id ciW4) = some ciW4 :=
  (C4_canonical_line_roundtrip ciW4 (by decide) (by decide) (by decide)
    (by decide) (by decide)).1

/-- Claim C5 witness: a WHATSAT with radius 51 is answered "? <line>". -/
theorem C5_reject_witness :
    process_command stC5 ⟨0, 0⟩ [] "WHATSAT cli 51 5".toList =
      some (qmark "WHATSAT cli 51 5".toList, stC5, []) :=
  C5_whatsat_rejections.1 stC5 ⟨0, 0⟩ [] "WHATSAT cli 51 5".toList
    ["cli".toList, "51".toList, "5".toList] (by decide) (by decide)

/-- Claim C6 witness: the already-seen record leaves stW6 untouched. -/
theorem C6_duplicate_witness :
    process_server_message stW6 "Bailey".toList msgW6 = some (stW6, []) :=
  C6_duplicate_message_dropped stW6 "Bailey".toList msgW6 ciW6 (by decide)
    (by decide) (by decide)

/-- Claim C7 witness: the accepted record from Clark is flooded exactly
to Bailey - the connected neighbor other than the source. -/
theorem C7_flood_witness :
    [("Bailey".toList, msgW7)] =
      (stW7.neighbors.filter
          (fun n => decide (n ≠ "Clark".toList ∧ n ∈ stW7.connections))).map
        (fun n => (n, format_flood_message ciW7.server_id ciW7)) :=
  (C7_flood_spares_source stW7 "Clark".toList msgW7 stW7b
      [("Bailey".toList, msgW7)] (by decide)).2 ciW7 (by decide) (by decide)
    (by decide) (by decide)

/-- Claim C8 witness: the signless-skew line parses, and a line that does
not parse ("AT x") leaves the state unchanged. -/
theorem C8_parse_witness :
    (parse_at_message msgC8).isSome ∧
    process_server_message stW8 "S".toList "AT x".toList = some (stW8, []) :=
  ⟨(C8_at_parse_characterization.1 msgC8).mpr (by decide),
    C8_at_parse_characterization.2 stW8 "S".toList "AT x".toList (by decide)⟩

/-- Claim C9 witness: eight consecutive failures sleep 1, 2, 4, 8, 16,
32, 60, 60, and a success leaves the current delay 7 untouched. -/
theorem C9_schedule_witness :
    (runRetry CONNECTION_RETRY_INITIAL (List.replicate 8 ConnEvent.fail)).1 =
      (List.range 8).map
        (fun i => min (CONNECTION_RETRY_INITIAL * 2 ^ i) CONNECTION_RETRY_MAX) ∧
    runRetry 7 (ConnEvent.succ :: [ConnEvent.fail]) = runRetry 7 [ConnEvent.fail] :=
  ⟨C9_backoff_schedule.1 8, C9_backoff_schedule.2 7 [ConnEvent.fail]⟩
